import Mathlib

/-!
Verification of the external-data resilience layer of the Levy-analyzer
stock-portfolio tracker (backend/server.js and the client portfolio hook).
Each JavaScript function relevant to the documented properties is embedded
as an executable Lean definition; timestamps are milliseconds-since-epoch
modelled as `Nat`, HTTP/network effects are passed in as explicit outcome
values, and thrown JavaScript errors become `Except` errors.
-/

namespace LevyAnalyzer

/-! ## Cache layer (server.js lines 32-41, 450-463)

A cache namespace is a `Map` from string keys to `{data, timestamp}`
records.  Reads are a hit only while `Date.now() - timestamp < TTL`;
stale entries are never deleted, only ignored.
-/

/-- Cache namespace: key to (timestamp, value), `none` when absent. -/
def CacheMap (V : Type) : Type := String → Option (Nat × V)

/-- `CACHE_DURATION = 60000` (server.js line 37). -/
def CACHE_DURATION : Nat := 60000

/-- `CACHE_DURATIONS.STOCK = 30 * 1000` (server.js line 461). -/
def CACHE_DURATIONS_STOCK : Nat := 30 * 1000

/-- `CACHE_DURATIONS.NEWS = 5 * 60 * 1000` (server.js line 462). -/
def CACHE_DURATIONS_NEWS : Nat := 5 * 60 * 1000

/-- `NEWS_CACHE_DURATION = 5 * 60 * 1000` (server.js line 41). -/
def NEWS_CACHE_DURATION : Nat := 5 * 60 * 1000

/-- `cache.set(key, {data, timestamp: Date.now()})` (server.js lines 427-430,
539-542, 599-602, 617-620). -/
def cacheSet (m : CacheMap V) (k : String) (now : Nat) (v : V) : CacheMap V :=
  fun q => if q = k then some (now, v) else m q

/-- `getCachedData(cache, key)` (server.js lines 451-457), with the TTL as a
parameter: the helper hardcodes `CACHE_DURATION`, and the same read logic is
inlined with `CACHE_DURATIONS.STOCK` (line 472) and `CACHE_DURATIONS.NEWS`
(line 579) in the endpoints.  A hit requires `now - timestamp < ttl`. -/
def getCachedData (m : CacheMap V) (k : String) (now ttl : Nat) : Option V :=
  match m k with
  | some (ts, d) => if now - ts < ttl then some d else none
  | none => none

/-! ## SEC rate limiter (server.js lines 62-151) -/

/-- `secRateLimiter` mutable state (server.js lines 63-69).  The field
`requestsPerSecond = 0.1` is a constant; the derived minimum delay
`1000 / 0.1 = 10000` ms appears as `minDelayMs` below. -/
structure SecState where
  lastRequestTime : Nat
  isBlocked : Bool
  blockUntil : Nat
  consecutiveErrors : Nat
deriving DecidableEq, Repr

/-- `minDelay = 1000 / secRateLimiter.requestsPerSecond` with
`requestsPerSecond = 0.1` (server.js lines 64, 91). -/
def minDelayMs : Nat := 10000

/-- `Math.ceil(a / b)` on nonnegative integers. -/
def ceilDiv (a b : Nat) : Nat := (a + b - 1) / b

/-- The minimum-interval part of `checkSecRateLimit` (server.js lines 89-99):
if less than `minDelay` elapsed since the last request, suspend for the
remainder; then record the new `lastRequestTime` (the clock after waiting). -/
def checkDelay (st : SecState) (now : Nat) : Except Nat (SecState × Nat) :=
  let since := now - st.lastRequestTime
  let now2 := if since < minDelayMs then now + (minDelayMs - since) else now
  .ok ({ st with lastRequestTime := now2 }, now2)

/-- `checkSecRateLimit()` (server.js lines 75-100).  While blocked and the
block window has not elapsed, throws with the remaining wait time
`Math.ceil((blockUntil - now) / 1000)` seconds; when the window elapsed,
clears the blocked flag and the failure count, then applies the
minimum-interval delay. -/
def checkSecRateLimit (st : SecState) (now : Nat) : Except Nat (SecState × Nat) :=
  if st.isBlocked then
    if now < st.blockUntil then
      .error (ceilDiv (st.blockUntil - now) 1000)
    else
      checkDelay { st with isBlocked := false, consecutiveErrors := 0 } now
  else
    checkDelay st now

/-- Outcome of the downstream HTTP exchange itself: either a response with
some status code arrived, or the connection failed (timeout, unreachable). -/
inductive WireOutcome where
  | response (status : Nat)
  | networkError
deriving DecidableEq, Repr

/-- Axios response object as used by `makeSecRequest` (only the status is
inspected). -/
structure SecResponse where
  status : Nat
deriving DecidableEq, Repr

/-- Errors flowing through `makeSecRequest`.  `axiosBadResponse` is an axios
rejection that carries a response object (`error.response.status`); the
errors constructed with `new Error(...)` in the function body
(`notFound`, `badStatus`) carry no response. -/
inductive SecError where
  | blocked (waitSeconds : Nat)
  | notFound
  | badStatus (status : Nat)
  | axiosNoResponse
  | axiosBadResponse (status : Nat)
  | rateLimitExceeded
deriving DecidableEq, Repr

/-- `error.response?.status` (server.js lines 104, 146). -/
def errResponseStatus : SecError → Option Nat
  | .axiosBadResponse s => some s
  | _ => none

/-- The axios call of `makeSecRequest` with
`validateStatus: status => status < 500` (server.js lines 120-131): a wire
response with status below 500 resolves; a status of 500 or above rejects
with the response attached; a connection failure rejects with no response. -/
def axiosSend (w : WireOutcome) : Except SecError SecResponse :=
  match w with
  | .response s => if s < 500 then .ok ⟨s⟩ else .error (.axiosBadResponse s)
  | .networkError => .error .axiosNoResponse

/-- `handleSecRateLimit(error)` (server.js lines 103-113): when the error
carries a 429 response, increments `consecutiveErrors`, blocks for
`min(2^consecutiveErrors * 10 * 60 * 1000, 24 * 60 * 60 * 1000)` ms (with the
already-incremented count) and throws the rate-limit error; otherwise
rethrows the error unchanged. -/
def handleSecRateLimit (st : SecState) (now : Nat) (e : SecError) :
    SecState × SecError :=
  if errResponseStatus e == some 429 then
    let errs := st.consecutiveErrors + 1
    let blockTime := min (2 ^ errs * 10 * 60 * 1000) (24 * 60 * 60 * 1000)
    ({ st with consecutiveErrors := errs, isBlocked := true,
               blockUntil := now + blockTime },
     .rateLimitExceeded)
  else (st, e)

/-- The `catch` block of `makeSecRequest` (server.js lines 144-150): errors
whose `response?.status === 429` are routed to `handleSecRateLimit`, all
others are rethrown.  The boolean records that the network call was issued. -/
def reachCatch (st : SecState) (now : Nat) (e : SecError) :
    Except SecError SecResponse × SecState × Bool :=
  if errResponseStatus e == some 429 then
    let p := handleSecRateLimit st now e
    (.error p.2, p.1, true)
  else (.error e, st, true)

/-- `makeSecRequest(url)` (server.js lines 116-151) given the wire outcome of
the single axios exchange.  Returns the call result, the limiter state after
the call, and whether a network request was issued at all. -/
def makeSecRequest (st : SecState) (now : Nat) (w : WireOutcome) :
    Except SecError SecResponse × SecState × Bool :=
  match checkSecRateLimit st now with
  | .error wait => (.error (.blocked wait), st, false)
  | .ok (st1, now1) =>
    match axiosSend w with
    | .ok resp =>
      if resp.status = 404 then
        reachCatch st1 now1 .notFound
      else if resp.status ≠ 200 then
        reachCatch st1 now1 (.badStatus resp.status)
      else
        (.ok resp, { st1 with consecutiveErrors := 0 }, true)
    | .error e => reachCatch st1 now1 e

/-! ## Theorems: cache layer -/

/-- Claim C5: in every cache namespace, a get immediately after
`put(key, value)` (age 0, below the positive TTL) returns the value; a get
whose entry age is at or beyond the TTL returns absent; and the stale entry
is left in place in the map rather than deleted. -/
theorem cache_put_get_ttl (V : Type) (m : CacheMap V) (k : String) (v : V)
    (t ttl : Nat) (h : 0 < ttl) :
    getCachedData (cacheSet m k t v) k t ttl = some v ∧
    (∀ tg, t + ttl ≤ tg → getCachedData (cacheSet m k t v) k tg ttl = none) ∧
    cacheSet m k t v k = some (t, v) := by
  refine ⟨?_, ?_, ?_⟩
  · simp [getCachedData, cacheSet, h]
  · intro tg htg
    have hge : ttl ≤ tg - t := by omega
    simp [getCachedData, cacheSet]
    omega
  · simp [cacheSet]

/-- Witness for C5: the quote namespace (TTL 30000 ms), key "AAPL",
value 7, stored at time 0. -/
theorem cache_put_get_ttl_witness :
    0 < CACHE_DURATIONS_STOCK ∧
    (getCachedData (cacheSet (fun _ => none) "AAPL" 0 (7 : Nat)) "AAPL" 0
        CACHE_DURATIONS_STOCK = some 7 ∧
      (∀ tg, 0 + CACHE_DURATIONS_STOCK ≤ tg →
        getCachedData (cacheSet (fun _ => none) "AAPL" 0 (7 : Nat)) "AAPL" tg
          CACHE_DURATIONS_STOCK = none) ∧
      cacheSet (fun _ => none) "AAPL" 0 (7 : Nat) "AAPL" = some (0, 7)) :=
  ⟨by decide, cache_put_get_ttl Nat (fun _ => none) "AAPL" 7 0
    CACHE_DURATIONS_STOCK (by decide)⟩

/-! ## Theorems: rate limiter -/

/-- Claim C3: whenever the limiter is blocked and the block window has not
elapsed (`now < blockUntil`), `makeSecRequest` fails immediately with the
remaining wait time, which is strictly positive, the state is unchanged, and
no network request is issued (third component `false`), for every possible
wire outcome. -/
theorem rate_limiter_blocked_fails_fast (st : SecState) (now : Nat)
    (w : WireOutcome) (hb : st.isBlocked = true) (hn : now < st.blockUntil) :
    makeSecRequest st now w =
      (.error (.blocked (ceilDiv (st.blockUntil - now) 1000)), st, false) ∧
    0 < ceilDiv (st.blockUntil - now) 1000 := by
  constructor
  · simp [makeSecRequest, checkSecRateLimit, hb, hn]
  · have h1 : 1 ≤ st.blockUntil - now := by omega
    simp only [ceilDiv]
    omega

/-- Witness for C3: blocked state with `blockUntil = 5000`, queried at
`now = 1000`; the call fails with a 4-second wait and no network request. -/
theorem rate_limiter_blocked_fails_fast_witness :
    (SecState.mk 0 true 5000 1).isBlocked = true ∧ (1000 : Nat) < 5000 ∧
    (makeSecRequest ⟨0, true, 5000, 1⟩ 1000 .networkError =
        (.error (.blocked (ceilDiv (5000 - 1000) 1000)), ⟨0, true, 5000, 1⟩,
          false) ∧
      0 < ceilDiv (5000 - 1000) 1000) :=
  ⟨rfl, by decide,
    rate_limiter_blocked_fails_fast ⟨0, true, 5000, 1⟩ 1000 .networkError rfl
      (by decide)⟩

/-- Claim C4 (code bug evidence): a 429 wire response reaches
`makeSecRequest` as a resolved axios response (`validateStatus` accepts every
status below 500), so the function throws a plain
`SEC request failed with status 429` error carrying no response object, the
`error.response?.status === 429` test in the catch is false, and
`handleSecRateLimit` never runs: the failure count stays 0, the limiter
stays unblocked and `blockUntil` stays 0, contrary to the claimed backoff
update.  Second conjunct: a 200 wire response does reset the failure count
to 0.  Third conjunct: `handleSecRateLimit` itself, fed an error that does
carry a 429 response, performs exactly the claimed update - showing the
update is implemented but unreachable from `makeSecRequest`. -/
theorem sec_429_leaves_limiter_state_unchanged :
    makeSecRequest ⟨0, false, 0, 0⟩ 20000 (.response 429) =
      (.error (.badStatus 429), ⟨20000, false, 0, 0⟩, true) ∧
    makeSecRequest ⟨0, false, 0, 5⟩ 20000 (.response 200) =
      (.ok ⟨200⟩, ⟨20000, false, 0, 0⟩, true) ∧
    handleSecRateLimit ⟨20000, false, 0, 0⟩ 20000 (.axiosBadResponse 429) =
      (⟨20000, true, 20000 + min (2 ^ 1 * 10 * 60 * 1000)
          (24 * 60 * 60 * 1000), 1⟩,
        .rateLimitExceeded) := by
  refine ⟨rfl, rfl, by decide⟩

/-! ## SEC filing selection (server.js lines 179-275) -/

/-- The three admitted regulatory form types. -/
inductive FormType where
  | tenK
  | tenQ
  | eightK
deriving DecidableEq, Repr

/-- `["10-K", "10-Q", "8-K"].includes(form)` (server.js line 224), as a
parse into the three admitted form types. -/
def parseForm (s : String) : Option FormType :=
  if s = "10-K" then some .tenK
  else if s = "10-Q" then some .tenQ
  else if s = "8-K" then some .eightK
  else none

/-- One entry of `response.data.filings.recent` (server.js lines 217-221);
the filing date `new Date(date)` is its timestamp in ms. -/
structure RawFiling where
  form : String
  date : Nat
  accessionNumber : String
  primaryDocument : String
deriving DecidableEq, Repr

/-- Element of `filingUrls` (server.js lines 240-244). -/
structure SecFiling where
  type : FormType
  date : Nat
  url : String
deriving DecidableEq, Repr

/-- The global dash-removing `replace` on the accession number
(server.js line 236). -/
def removeDashes (s : String) : String :=
  ⟨s.data.filter (fun c => c != '-')⟩

/-- The document URL template (server.js line 237). -/
def filingDocUrl (cik : String) (r : RawFiling) : String :=
  "/Archives/edgar/data/" ++ cik ++ "/" ++ removeDashes r.accessionNumber
    ++ "/" ++ r.primaryDocument

/-- The filter-and-map loop over recent filings (server.js lines 216-245):
keep 10-K/10-Q/8-K filings whose date lies in the window (the code skips a
filing when `filingDate < startDate || filingDate > endDate`). -/
def candidateFilings (startDate endDate : Nat) (cik : String)
    (recent : List RawFiling) : List SecFiling :=
  recent.filterMap (fun r =>
    match parseForm r.form with
    | none => none
    | some t =>
      if r.date < startDate ∨ endDate < r.date then none
      else some ⟨t, r.date, filingDocUrl cik r⟩)

/-- The sort comparator `(a, b) => new Date(b.date) - new Date(a.date)`
(server.js line 252) orders by date, newest first: `a` may precede `b`
exactly when `b.date ≤ a.date`. -/
def dateGe (a b : SecFiling) : Prop := b.date ≤ a.date

instance : DecidableRel dateGe := fun a b => Nat.decLe b.date a.date

instance : IsTotal SecFiling dateGe := ⟨fun a b => Nat.le_total b.date a.date⟩

instance : IsTrans SecFiling dateGe :=
  ⟨fun _ _ _ hab hbc => Nat.le_trans hbc hab⟩

/-- The per-form-type counters object (server.js line 256). -/
structure QuotaCounts where
  tenK : Nat
  tenQ : Nat
  eightK : Nat
deriving DecidableEq, Repr

/-- `counts[type]`. -/
def quotaGet (c : QuotaCounts) : FormType → Nat
  | .tenK => c.tenK
  | .tenQ => c.tenQ
  | .eightK => c.eightK

/-- `counts[type]++`. -/
def quotaIncr (c : QuotaCounts) : FormType → QuotaCounts
  | .tenK => { c with tenK := c.tenK + 1 }
  | .tenQ => { c with tenQ := c.tenQ + 1 }
  | .eightK => { c with eightK := c.eightK + 1 }

/-- `limits` mapping "10-K" to 1, "10-Q" to 2 and "8-K" to 2 (server.js line 257). -/
def quotaLimit : FormType → Nat
  | .tenK => 1
  | .tenQ => 2
  | .eightK => 2

/-- `Object.values(counts).every((count, i) => count >= Object.values(limits)[i])`
(server.js line 264): both objects hold their keys in the same insertion
order, so the check compares each counter with its own limit. -/
def quotaFull (c : QuotaCounts) : Bool :=
  decide (quotaLimit .tenK ≤ c.tenK) && decide (quotaLimit .tenQ ≤ c.tenQ)
    && decide (quotaLimit .eightK ≤ c.eightK)

/-- The quota loop (server.js lines 259-267): push a filing while its type
is below its quota, incrementing the matching counter, and break out of the
loop as soon as every counter has reached its limit. -/
def limitFilings : List SecFiling → QuotaCounts → List SecFiling
  | [], _ => []
  | f :: rest, c =>
    if quotaGet c f.type < quotaLimit f.type then
      let c1 := quotaIncr c f.type
      if quotaFull c1 then [f] else f :: limitFilings rest c1
    else
      if quotaFull c then [] else limitFilings rest c

/-- The pure core of `fetchSecFilings(ticker)` once the recent-filings list
has arrived (server.js lines 216-270): filter to admitted forms inside the
date window, fail when nothing remains, sort newest first, then apply the
per-form quotas. -/
def fetchSecFilings (startDate endDate : Nat) (cik : String)
    (recent : List RawFiling) : Except String (List SecFiling) :=
  let filingUrls := candidateFilings startDate endDate cik recent
  if filingUrls.isEmpty then
    .error "No filings found in the last 2 years"
  else
    .ok (limitFilings (List.insertionSort dateGe filingUrls) ⟨0, 0, 0⟩)

/-- Number of filings of form type `t` in a list. -/
def countType (t : FormType) (l : List SecFiling) : Nat :=
  l.countP (fun f => f.type == t)

theorem quotaGet_incr_self (c : QuotaCounts) (s : FormType) :
    quotaGet (quotaIncr c s) s = quotaGet c s + 1 := by
  cases s <;> simp [quotaGet, quotaIncr]

theorem quotaGet_incr_ne (c : QuotaCounts) (s t : FormType) (h : s ≠ t) :
    quotaGet (quotaIncr c s) t = quotaGet c t := by
  cases s <;> cases t <;> simp_all [quotaGet, quotaIncr]

theorem quotaFull_ge (c : QuotaCounts) (h : quotaFull c = true)
    (t : FormType) : quotaLimit t ≤ quotaGet c t := by
  simp only [quotaFull, Bool.and_eq_true, decide_eq_true_eq, quotaLimit] at h
  cases t <;> simp [quotaGet, quotaLimit] <;> omega

theorem limitFilings_sublist (l : List SecFiling) (c : QuotaCounts) :
    List.Sublist (limitFilings l c) l := by
  induction l generalizing c with
  | nil => simp [limitFilings]
  | cons f rest ih =>
    simp only [limitFilings]
    split
    · split
      · exact List.Sublist.cons₂ f (List.nil_sublist rest)
      · exact List.Sublist.cons₂ f (ih _)
    · split
      · exact List.nil_sublist _
      · exact List.Sublist.cons f (ih c)

theorem countType_limitFilings (t : FormType) :
    ∀ (l : List SecFiling) (c : QuotaCounts),
      countType t (limitFilings l c) =
        min (quotaLimit t - quotaGet c t) (countType t l) := by
  intro l
  induction l with
  | nil => intro c; simp [limitFilings, countType]
  | cons f rest ih =>
    intro c
    simp only [limitFilings]
    by_cases h1 : quotaGet c f.type < quotaLimit f.type
    · simp only [if_pos h1]
      by_cases h2 : quotaFull (quotaIncr c f.type) = true
      · simp only [if_pos h2]
        by_cases hft : f.type = t
        · subst hft
          have hfull := quotaFull_ge _ h2 f.type
          rw [quotaGet_incr_self] at hfull
          simp [countType, List.countP_cons]
          omega
        · have hfull := quotaFull_ge _ h2 t
          rw [quotaGet_incr_ne c f.type t hft] at hfull
          simp [countType, List.countP_cons, hft]
          omega
      · simp only [if_neg h2]
        by_cases hft : f.type = t
        · subst hft
          have := ih (quotaIncr c f.type)
          rw [quotaGet_incr_self] at this
          simp [countType, List.countP_cons] at this ⊢
          omega
        · have := ih (quotaIncr c f.type)
          rw [quotaGet_incr_ne c f.type t hft] at this
          simp [countType, List.countP_cons, hft] at this ⊢
          omega
    · simp only [if_neg h1]
      by_cases h2 : quotaFull c = true
      · simp only [if_pos h2]
        have hfull := quotaFull_ge _ h2 t
        simp [countType, List.countP_cons]
        omega
      · simp only [if_neg h2]
        have := ih c
        by_cases hft : f.type = t
        · subst hft
          simp [countType, List.countP_cons] at this ⊢
          omega
        · simp [countType, List.countP_cons, hft] at this ⊢
          omega

theorem countType_perm {l1 l2 : List SecFiling} (h : l1.Perm l2)
    (t : FormType) : countType t l1 = countType t l2 :=
  h.countP_eq _

/-- Claim C2: when the candidates inside the date window comprise three
10-K, five 10-Q and one 8-K filings, the selection returns exactly one
10-K, two 10-Q and one 8-K, sorted by filing date newest first. -/
theorem filing_quota_selection (startDate endDate : Nat) (cik : String)
    (recent : List RawFiling)
    (h10K : countType .tenK (candidateFilings startDate endDate cik recent) = 3)
    (h10Q : countType .tenQ (candidateFilings startDate endDate cik recent) = 5)
    (h8K : countType .eightK (candidateFilings startDate endDate cik recent) = 1) :
    ∃ sel, fetchSecFilings startDate endDate cik recent = .ok sel ∧
      countType .tenK sel = 1 ∧ countType .tenQ sel = 2 ∧
      countType .eightK sel = 1 ∧ List.Sorted dateGe sel := by
  have hne : (candidateFilings startDate endDate cik recent).isEmpty = false := by
    cases hc : candidateFilings startDate endDate cik recent with
    | nil => rw [hc] at h10K; simp [countType] at h10K
    | cons a l => simp
  refine ⟨limitFilings
      (List.insertionSort dateGe (candidateFilings startDate endDate cik recent))
      ⟨0, 0, 0⟩, ?_, ?_, ?_, ?_, ?_⟩
  · simp [fetchSecFilings, hne]
  · rw [countType_limitFilings,
      countType_perm (List.perm_insertionSort dateGe _) _, h10K]
    rfl
  · rw [countType_limitFilings,
      countType_perm (List.perm_insertionSort dateGe _) _, h10Q]
    rfl
  · rw [countType_limitFilings,
      countType_perm (List.perm_insertionSort dateGe _) _, h8K]
    rfl
  · exact List.Pairwise.sublist (limitFilings_sublist _ _)
      (List.sorted_insertionSort dateGe _)

/-- A concrete recent-filings list: three 10-K, five 10-Q, one 8-K, plus one
filing of a type outside the quota and one 10-Q outside the date window. -/
def exampleRecent : List RawFiling :=
  [⟨"10-Q", 850, "0001-23-450", "b0.htm"⟩,
   ⟨"10-K", 900, "0001-23-451", "a1.htm"⟩,
   ⟨"8-K", 300, "0001-23-452", "c1.htm"⟩,
   ⟨"10-Q", 700, "0001-23-453", "b1.htm"⟩,
   ⟨"S-1", 650, "0001-23-454", "d1.htm"⟩,
   ⟨"10-Q", 600, "0001-23-455", "b2.htm"⟩,
   ⟨"10-K", 500, "0001-23-456", "a2.htm"⟩,
   ⟨"10-Q", 2000, "0001-23-457", "b9.htm"⟩,
   ⟨"10-Q", 400, "0001-23-458", "b3.htm"⟩,
   ⟨"10-Q", 200, "0001-23-459", "b4.htm"⟩,
   ⟨"10-K", 100, "0001-23-460", "a3.htm"⟩]

/-- Witness for C2: the concrete list above, window `[0, 1000]`. -/
theorem filing_quota_selection_witness :
    countType .tenK (candidateFilings 0 1000 "0000000001" exampleRecent) = 3 ∧
    countType .tenQ (candidateFilings 0 1000 "0000000001" exampleRecent) = 5 ∧
    countType .eightK (candidateFilings 0 1000 "0000000001" exampleRecent) = 1 ∧
    (∃ sel, fetchSecFilings 0 1000 "0000000001" exampleRecent = .ok sel ∧
      countType .tenK sel = 1 ∧ countType .tenQ sel = 2 ∧
      countType .eightK sel = 1 ∧ List.Sorted dateGe sel) :=
  ⟨by decide, by decide, by decide,
    filing_quota_selection 0 1000 "0000000001" exampleRecent (by decide)
      (by decide) (by decide)⟩

/-! ## String helpers shared by several endpoints -/

/-- Substring containment on character lists (JavaScript `includes`). -/
def containsSub : List Char → List Char → Bool
  | [], needle => needle.isEmpty
  | c :: t, needle => needle.isPrefixOf (c :: t) || containsSub t needle

/-- JavaScript `hay.includes(needle)`. -/
def containsStr (hay needle : String) : Bool := containsSub hay.data needle.data

/-! ## Stock quote endpoint and exchange fallback (server.js lines 466-555) -/

/-- Outcome of one variant attempt of the exchanges loop (server.js lines
482-531): the attempt throws, yields no usable chart or quote data (a bare
`continue` that records no error), or parses into a complete result. -/
inductive AttemptResult (α : Type) where
  | ok (d : α)
  | noData
  | thrown (msg : String)
deriving DecidableEq, Repr

/-- An attempt that did not produce a parsed result. -/
def isFailedAttempt : AttemptResult α → Bool
  | .ok _ => false
  | .noData => true
  | .thrown _ => true

/-- `const exchanges` holding the empty suffix, `.NE`, `:NYSE` and `:NASDAQ` (server.js
line 477). -/
def exchanges : List String := ["", ".NE", ":NYSE", ":NASDAQ"]

/-- The for-loop over exchange variants (server.js lines 481-532): attempt
each variant in order; the first parsed result wins and exits the loop; a
thrown attempt records `lastError`; a no-data attempt continues silently.
Returns the winning result, the ordered list of variants actually attempted
(each listed once per invocation of the per-variant body), and the last
recorded error. -/
def tryExchanges (attempt : String → AttemptResult α) :
    List String → Option String → Option α × List String × Option String
  | [], lastErr => (none, [], lastErr)
  | ex :: rest, lastErr =>
    match attempt ex with
    | .ok d => (some d, [ex], lastErr)
    | .noData =>
      match tryExchanges attempt rest lastErr with
      | (r, tr, le) => (r, ex :: tr, le)
    | .thrown m =>
      match tryExchanges attempt rest (some m) with
      | (r, tr, le) => (r, ex :: tr, le)

/-- The fetch-and-respond path of `GET /api/stock/:ticker` on a cache miss
(server.js lines 477-553): run the exchange fallback; on success cache the
result under the current time and respond 200; otherwise respond 404 with
the message built from `lastError?.message` with fallback "Stock not found"
(lines 534-553).  The final boolean records that the outbound fetch
sequence ran. -/
def stockFetchPath (ticker : String) (cached : Option (Nat × α)) (now : Nat)
    (attempt : String → AttemptResult α) :
    (Nat × Except String α) × Option (Nat × α) × Bool :=
  match tryExchanges attempt exchanges none with
  | (some d, _, _) => ((200, .ok d), some (now, d), true)
  | (none, _, le) =>
    let msg := match le with
      | some m => m
      | none => "Stock not found"
    let errorMessage :=
      if containsStr msg "Stock not found" then
        "Stock " ++ ticker ++ " not found"
      else
        "Failed to fetch stock data: " ++ msg
    ((404, .error errorMessage), cached, true)

/-- `GET /api/stock/:ticker` (server.js lines 466-555): serve from the
quote cache while the entry is younger than `CACHE_DURATIONS.STOCK`,
otherwise run the exchange fallback and cache a successful result. -/
def stockEndpoint (ticker : String) (cached : Option (Nat × α)) (now : Nat)
    (attempt : String → AttemptResult α) :
    (Nat × Except String α) × Option (Nat × α) × Bool :=
  match cached with
  | some (ts, d) =>
    if now - ts < CACHE_DURATIONS_STOCK then ((200, .ok d), some (ts, d), false)
    else stockFetchPath ticker (some (ts, d)) now attempt
  | none => stockFetchPath ticker none now attempt

theorem stockFetchPath_ran (ticker : String) (cached : Option (Nat × α))
    (now : Nat) (attempt : String → AttemptResult α) :
    (stockFetchPath ticker cached now attempt).2.2 = true := by
  unfold stockFetchPath
  rcases tryExchanges attempt exchanges none with ⟨r, tr, le⟩
  cases r <;> simp

/-- Claim C7: when the first two variants fail (the attempt throws or the
parse yields nothing usable) and the third succeeds, the fallback loop
returns exactly the parsed result of the third variant, attempts the first two
variants exactly once each in listed order (the trace is precisely
`[v1, v2, v3]`, so no variant is retried within the sequence), and never
touches the remaining variants. -/
theorem fallback_first_success_wins (α : Type)
    (attempt : String → AttemptResult α) (v1 v2 v3 : String)
    (rest : List String) (d : α) (le0 : Option String)
    (h1 : isFailedAttempt (attempt v1) = true)
    (h2 : isFailedAttempt (attempt v2) = true)
    (h3 : attempt v3 = .ok d) :
    ∃ le, tryExchanges attempt (v1 :: v2 :: v3 :: rest) le0 =
      (some d, [v1, v2, v3], le) := by
  cases hv1 : attempt v1 with
  | ok d1 => rw [hv1] at h1; simp [isFailedAttempt] at h1
  | noData =>
    cases hv2 : attempt v2 with
    | ok d2 => rw [hv2] at h2; simp [isFailedAttempt] at h2
    | noData => exact ⟨le0, by simp [tryExchanges, hv1, hv2, h3]⟩
    | thrown m => exact ⟨some m, by simp [tryExchanges, hv1, hv2, h3]⟩
  | thrown m1 =>
    cases hv2 : attempt v2 with
    | ok d2 => rw [hv2] at h2; simp [isFailedAttempt] at h2
    | noData => exact ⟨some m1, by simp [tryExchanges, hv1, hv2, h3]⟩
    | thrown m2 => exact ⟨some m2, by simp [tryExchanges, hv1, hv2, h3]⟩

/-- A concrete per-variant behavior: bare symbol throws, `.NE` parses to
nothing, `:NYSE` succeeds. -/
def exAttempt : String → AttemptResult Nat := fun s =>
  if s = "" then .thrown "connection reset"
  else if s = ".NE" then .noData
  else .ok 42

/-- Witness for C7: the variant list of the code with the behavior above. -/
theorem fallback_first_success_wins_witness :
    isFailedAttempt (exAttempt "") = true ∧
    isFailedAttempt (exAttempt ".NE") = true ∧
    exAttempt ":NYSE" = .ok 42 ∧
    (∃ le, tryExchanges exAttempt ["", ".NE", ":NYSE", ":NASDAQ"] none =
      (some 42, ["", ".NE", ":NYSE"], le)) :=
  ⟨by decide, by decide, by decide,
    fallback_first_success_wins Nat exAttempt "" ".NE" ":NYSE" [":NASDAQ"] 42
      none (by decide) (by decide) (by decide)⟩

/-- Claim C6: two consecutive `GET /stock/:ticker` requests.  The first, on
an empty cache with a fetch sequence that parses to `d`, issues the
outbound fetch (flag `true`) and caches the result at its time `t1`.  A
second request arriving while the cached entry is younger than the quote
TTL is served from the cache with the same data and issues no outbound
fetch (flag `false`, so exactly one fetch in total); a second request
arriving at or after the TTL runs the outbound fetch sequence again.  (An
"outbound external fetch" is one run of the exchange fallback sequence of
lines 481-532.) -/
theorem stock_quote_cache_idempotence (α : Type) (ticker : String) (d : α)
    (t1 t2 : Nat) (attempt1 attempt2 : String → AttemptResult α)
    (hfetch : (tryExchanges attempt1 exchanges none).1 = some d) :
    stockEndpoint ticker none t1 attempt1 =
      ((200, .ok d), some (t1, d), true) ∧
    (t2 - t1 < CACHE_DURATIONS_STOCK →
      stockEndpoint ticker (some (t1, d)) t2 attempt2 =
        ((200, .ok d), some (t1, d), false)) ∧
    (CACHE_DURATIONS_STOCK ≤ t2 - t1 →
      (stockEndpoint ticker (some (t1, d)) t2 attempt2).2.2 = true) := by
  refine ⟨?_, ?_, ?_⟩
  · rcases hE : tryExchanges attempt1 exchanges none with ⟨r, tr, le⟩
    rw [hE] at hfetch
    simp only at hfetch
    subst hfetch
    simp [stockEndpoint, stockFetchPath, hE]
  · intro h
    simp [stockEndpoint, h]
  · intro h
    have h2 : ¬ (t2 - t1 < CACHE_DURATIONS_STOCK) := by omega
    simp only [stockEndpoint, if_neg h2]
    exact stockFetchPath_ran ticker (some (t1, d)) t2 attempt2

/-- Witness for C6: ticker MSFT, data 7, first request at 0 ms, second at
10000 ms (inside the 30000 ms TTL), fetch succeeding on the bare symbol. -/
theorem stock_quote_cache_idempotence_witness :
    (tryExchanges (fun _ => AttemptResult.ok (7 : Nat)) exchanges none).1 =
      some 7 ∧
    (stockEndpoint "MSFT" none 0 (fun _ => AttemptResult.ok (7 : Nat)) =
        ((200, .ok 7), some (0, 7), true) ∧
      (10000 - 0 < CACHE_DURATIONS_STOCK →
        stockEndpoint "MSFT" (some (0, 7)) 10000
            (fun _ => AttemptResult.ok (7 : Nat)) =
          ((200, .ok 7), some (0, 7), false)) ∧
      (CACHE_DURATIONS_STOCK ≤ 10000 - 0 →
        (stockEndpoint "MSFT" (some (0, 7)) 10000
            (fun _ => AttemptResult.ok (7 : Nat))).2.2 = true)) :=
  ⟨rfl, stock_quote_cache_idempotence Nat "MSFT" 7 0 10000
    (fun _ => AttemptResult.ok 7) (fun _ => AttemptResult.ok 7) rfl⟩

/-! ## News endpoint (server.js lines 572-633) -/

/-- Response item of the news endpoints. -/
structure NewsItem where
  title : String
  link : String
  source : String
  pubDate : String
  description : String
deriving DecidableEq, Repr

/-- An item of `response.data.news` from the Yahoo search call; `pubDate`
stands for the locale-formatted `providerPublishTime`. -/
structure RawNewsItem where
  title : String
  link : String
  publisher : String
  pubDate : String
  snippet : String
deriving DecidableEq, Repr

/-- What the HTTP handler produced: a completed JSON response, or a crash
inside the handler after optionally setting a status code on the response
object (in which case no body is ever sent and the request is never
answered). -/
inductive NewsOutcome where
  | responded (status : Nat) (body : List NewsItem)
  | crashed (statusCodeSet : Option Nat)
deriving DecidableEq, Repr

/-- The synthetic market-data item (server.js lines 608-614); `nowStr`
stands for the locale-formatted current time. -/
def defaultNews (ticker nowStr : String) : NewsItem :=
  ⟨"Latest Market Data for " ++ ticker,
   "https://finance.yahoo.com/quote/" ++ ticker,
   "Market Data",
   nowStr,
   "View the latest market data and trading information for " ++ ticker ++ "."⟩

/-- The fetch part of the news endpoint (server.js lines 583-632) given the
outcome of the Yahoo search call.  On a response with at least one news
item, map and cache it; on a response with no items, cache and return the
single synthetic market-data item with status 200; when the fetch throws,
control reaches the catch block, which evaluates `res.status(500)` and then
crashes with a ReferenceError: `ticker` is destructured inside the `try`
block (line 574) and is not in scope in the catch (lines 625-631), so the
degraded body is never sent. -/
def newsFetchBranch (ticker nowStr : String)
    (cached : Option (Nat × List NewsItem)) (now : Nat)
    (fetch : Except Unit (List RawNewsItem)) :
    NewsOutcome × Option (Nat × List NewsItem) :=
  match fetch with
  | .error _ => (.crashed (some 500), cached)
  | .ok raws =>
    if 0 < raws.length then
      let news := raws.map fun r =>
        (⟨r.title, r.link, r.publisher, r.pubDate, r.snippet⟩ : NewsItem)
      (.responded 200 news, some (now, news))
    else
      let dn := [defaultNews ticker nowStr]
      (.responded 200 dn, some (now, dn))

/-- `GET /api/stock/:ticker/news` (server.js lines 572-633): serve from the
news cache while the entry is younger than `CACHE_DURATIONS.NEWS`,
otherwise run the fetch branch above. -/
def newsEndpoint (ticker nowStr : String)
    (cached : Option (Nat × List NewsItem)) (now : Nat)
    (fetch : Except Unit (List RawNewsItem)) :
    NewsOutcome × Option (Nat × List NewsItem) :=
  match cached with
  | some (ts, d) =>
    if now - ts < CACHE_DURATIONS_NEWS then (.responded 200 d, some (ts, d))
    else newsFetchBranch ticker nowStr (some (ts, d)) now fetch
  | none => newsFetchBranch ticker nowStr none now fetch

/-- Claim C1 (code bug evidence): with an empty news cache and an
unreachable news source (the fetch throws), the handler does not respond
with status 200 and a Market-Data item - it sets status 500 on the response
and crashes on the out-of-scope `ticker` reference, never sending a body.
The 200/Market-Data degradation exists only on the path where the fetch
succeeds with zero news items (second conjunct), whose single item indeed
has source "Market Data" (third conjunct). -/
theorem news_fetch_error_no_degraded_response :
    (newsEndpoint "AAPL" "1/1/2025, 10:00:00 AM" none 0 (.error ())).1 =
      .crashed (some 500) ∧
    (newsEndpoint "AAPL" "1/1/2025, 10:00:00 AM" none 0 (.ok [])).1 =
      .responded 200 [defaultNews "AAPL" "1/1/2025, 10:00:00 AM"] ∧
    (defaultNews "AAPL" "1/1/2025, 10:00:00 AM").source = "Market Data" :=
  ⟨rfl, rfl, rfl⟩

/-! ## Client watchlist hook `addStock` (part_003 lines 42-74 and
part_004 lines 42-66) -/

/-- A watchlist entry as stored by the portfolio hook (only the fields the
control flow reads). -/
structure PStock where
  ticker : String
  news : List NewsItem
deriving DecidableEq, Repr

/-- The quote-endpoint response payload (only the field the control flow
reads: the server-normalized ticker). -/
structure QuoteData where
  ticker : String
deriving DecidableEq, Repr

/-- Result of one `addStock` call: the watchlist afterwards, the error
message set (if any), the final loading flag, and how many HTTP requests
the call issued. -/
structure AddResult where
  stocks : List PStock
  errMsg : Option String
  loading : Bool
  httpRequests : Nat
deriving DecidableEq, Repr

/-- `addStock` of part_003 (lines 42-74): fetch the quote (one HTTP
request); on success fetch the news best-effort (a second HTTP request,
falling back to an empty list on failure); only then check for a duplicate
ticker and either reject or append. -/
def addStockBestEffort (stocks : List PStock)
    (quote : Except String QuoteData)
    (news : Except String (List NewsItem)) : AddResult :=
  match quote with
  | .error m => ⟨stocks, some m, false, 1⟩
  | .ok q =>
    let newsData := match news with
      | .ok n => n
      | .error _ => []
    if stocks.any (fun s => s.ticker == q.ticker) then
      ⟨stocks, some "Stock already exists in portfolio", false, 2⟩
    else
      ⟨stocks ++ [⟨q.ticker, newsData⟩], none, false, 2⟩

/-- `addStock` of part_004 (lines 42-66): fetch the quote, then the news
(two HTTP requests, a news failure aborting the add), and only then check
for a duplicate ticker. -/
def addStockStrict (stocks : List PStock) (quote : Except String QuoteData)
    (news : Except String (List NewsItem)) : AddResult :=
  match quote with
  | .error m => ⟨stocks, some m, false, 1⟩
  | .ok q =>
    match news with
    | .error m => ⟨stocks, some m, false, 2⟩
    | .ok n =>
      if stocks.any (fun s => s.ticker == q.ticker) then
        ⟨stocks, some "Stock already exists in portfolio", false, 2⟩
      else
        ⟨stocks ++ [⟨q.ticker, n⟩], none, false, 2⟩

/-- Counterexample to claim C9: adding AAPL to a watchlist already holding
AAPL is rejected with the local validation error, but only after two HTTP
requests (quote, then news) have been issued - not zero as claimed.  Both
hook revisions behave this way. -/
theorem duplicate_add_counterexample :
    (addStockBestEffort [⟨"AAPL", []⟩] (.ok ⟨"AAPL"⟩) (.ok [])).httpRequests
        = 2 ∧
    (addStockBestEffort [⟨"AAPL", []⟩] (.ok ⟨"AAPL"⟩) (.ok [])).errMsg =
      some "Stock already exists in portfolio" ∧
    (addStockStrict [⟨"AAPL", []⟩] (.ok ⟨"AAPL"⟩) (.ok [])).httpRequests
        = 2 ∧
    (addStockBestEffort [⟨"AAPL", []⟩] (.ok ⟨"AAPL"⟩) (.ok [])).httpRequests
        ≠ 0 :=
  ⟨rfl, rfl, rfl, by decide⟩

/-- Claim C9 as amended: for every watchlist and every fetched quote whose
ticker is already present, both revisions of `addStock` reject the add with
the local validation error and leave the watchlist unchanged - but the
rejection happens only after the quote and news HTTP requests were issued
(two requests, not zero). -/
theorem duplicate_add_rejected_after_fetch (stocks : List PStock)
    (q : QuoteData) (news : Except String (List NewsItem))
    (hdup : stocks.any (fun s => s.ticker == q.ticker) = true) :
    addStockBestEffort stocks (.ok q) news =
      ⟨stocks, some "Stock already exists in portfolio", false, 2⟩ ∧
    (∀ n, addStockStrict stocks (.ok q) (.ok n) =
      ⟨stocks, some "Stock already exists in portfolio", false, 2⟩) := by
  constructor
  · simp [addStockBestEffort, hdup]
  · intro n
    simp [addStockStrict, hdup]

/-- Witness for amended C9: watchlist `[AAPL]`, quote for AAPL. -/
theorem duplicate_add_rejected_after_fetch_witness :
    ([(⟨"AAPL", []⟩ : PStock)].any
        (fun s => s.ticker == (QuoteData.mk "AAPL").ticker) = true) ∧
    (addStockBestEffort [⟨"AAPL", []⟩] (.ok ⟨"AAPL"⟩) (.error "boom") =
        ⟨[⟨"AAPL", []⟩], some "Stock already exists in portfolio", false, 2⟩ ∧
      (∀ n, addStockStrict [⟨"AAPL", []⟩] (.ok ⟨"AAPL"⟩) (.ok n) =
        ⟨[⟨"AAPL", []⟩], some "Stock already exists in portfolio", false,
          2⟩)) :=
  ⟨by decide,
    duplicate_add_rejected_after_fetch [⟨"AAPL", []⟩] ⟨"AAPL"⟩ (.error "boom")
      (by decide)⟩

/-! ## Retry wrapper and translation endpoint (server.js lines 676-864) -/

/-- A JavaScript error as inspected by `retryWithBackoff`: `error.status`,
`error.headers` retry-after entry and `error.message`. -/
structure JsErr where
  status : Option Nat
  retryAfterHeader : Option Nat
  msg : String
deriving DecidableEq, Repr

/-- The loop body of `retryWithBackoff(operation, maxRetries)` (server.js
lines 676-691), with `op i` the outcome of attempt `i`: an attempt that
fails with `status === 429` while attempts remain waits and retries; any
other failure propagates immediately; running out of iterations (possible
only when `maxRetries = 0`) returns JavaScript `undefined`, modelled as
`Except.ok none`. -/
def retryGo (op : Nat → Except JsErr α) (maxRetries i : Nat) :
    Except JsErr (Option α) :=
  if h : i < maxRetries then
    match op i with
    | .ok a => .ok (some a)
    | .error e =>
      if e.status == some 429 && decide (i < maxRetries - 1) then
        retryGo op maxRetries (i + 1)
      else .error e
  else .ok none
termination_by maxRetries - i
decreasing_by omega

/-- `retryWithBackoff(operation, maxRetries = 3)` (server.js
lines 676-691). -/
def retryWithBackoff (op : Nat → Except JsErr α) (maxRetries : Nat) :
    Except JsErr (Option α) :=
  retryGo op maxRetries 0

/-- Body of a `/api/translate` JSON response. -/
inductive TrBody where
  | success (originalText translatedText targetLanguage : String)
  | failure (error code message : String)
deriving DecidableEq, Repr

/-- Result of one `/api/translate` request: the HTTP status, the JSON body,
and the target language actually passed to the translation service (`none`
when no translation call was made). -/
structure TrResult where
  status : Nat
  body : TrBody
  callTarget : Option String
deriving DecidableEq, Repr

/-- One attempt of the wrapped operation (server.js lines 821-830):
`translate` called with target `iw` - the target is hardcoded - with an empty
result re-thrown as `Empty translation result`.  `svc target i` is the
outcome of the translation service for attempt `i` at that target. -/
def translateOp (svc : String → Nat → Except JsErr String) (i : Nat) :
    Except JsErr String :=
  match svc "iw" i with
  | .ok r => if r = "" then .error ⟨none, none, "Empty translation result"⟩
             else .ok r
  | .error e => .error e

/-- Response construction of `/api/translate` after validation: 200 on a
translation result (the JavaScript serializes an `undefined` translation -
possible only with zero attempts - the same way), and the catch-block
message-based mapping to 503, 429, 400 or 500 (server.js lines 832-862). -/
def translateRespond (text : String) (r : Except JsErr (Option String)) :
    TrResult :=
  match r with
  | .ok (some tr) => ⟨200, .success text tr "iw", some "iw"⟩
  | .ok none => ⟨200, .success text "" "iw", some "iw"⟩
  | .error e =>
    if containsStr e.msg "network" then
      ⟨503, .failure "Translation service is temporarily unavailable"
        "NETWORK_ERROR" e.msg, some "iw"⟩
    else if containsStr e.msg "rate" then
      ⟨429, .failure "Too many translation requests. Please try again later"
        "RATE_LIMIT" e.msg, some "iw"⟩
    else if containsStr e.msg "not supported" then
      ⟨400, .failure "Translation to this language is not supported"
        "UNSUPPORTED_LANGUAGE" e.msg, some "iw"⟩
    else
      ⟨500, .failure "Translation failed" "TRANSLATION_FAILED" e.msg,
        some "iw"⟩

/-- `POST /api/translate` (server.js lines 803-864).  The request field
`targetLanguage` is destructured with default `iw` (line 805) but never
used afterwards: the service call hardcodes `iw` and so does the response
field.  Validation: missing or empty text gives 400 MISSING_TEXT, more than
5000 characters gives 400 TEXT_TOO_LONG. -/
def translateEndpoint (text : String) (targetLanguage : Option String)
    (svc : String → Nat → Except JsErr String) : TrResult :=
  if text = "" then
    ⟨400, .failure "Text is required" "MISSING_TEXT" "", none⟩
  else if 5000 < text.length then
    ⟨400, .failure "Text is too long. Maximum length is 5000 characters."
      "TEXT_TOO_LONG" "", none⟩
  else
    translateRespond text (retryWithBackoff (translateOp svc) 3)

/-- Claim C10: for every non-empty text of at most 5000 characters, the
translation call is performed with target language `iw`, the response is
identical whatever `targetLanguage` the request body supplied, and a 200
response carries `targetLanguage = "iw"` with the original text. -/
theorem translate_target_language_fixed (text : String)
    (tl1 tl2 : Option String) (svc : String → Nat → Except JsErr String)
    (h1 : text ≠ "") (h2 : text.length ≤ 5000) :
    (translateEndpoint text tl1 svc).callTarget = some "iw" ∧
    translateEndpoint text tl1 svc = translateEndpoint text tl2 svc ∧
    ((translateEndpoint text tl1 svc).status = 200 →
      ∃ tr, (translateEndpoint text tl1 svc).body = .success text tr "iw") := by
  have hlen : ¬ (5000 < text.length) := Nat.not_lt.mpr h2
  have hcall : ∀ r, (translateRespond text r).callTarget = some "iw" := by
    intro r
    rcases r with e | a
    · simp only [translateRespond]
      split
      · rfl
      · split
        · rfl
        · split
          · rfl
          · rfl
    · cases a <;> rfl
  have hbody : ∀ r, (translateRespond text r).status = 200 →
      ∃ tr, (translateRespond text r).body = .success text tr "iw" := by
    intro r
    rcases r with e | a
    · simp only [translateRespond]
      split
      · intro h; simp at h
      · split
        · intro h; simp at h
        · split
          · intro h; simp at h
          · intro h; simp at h
    · cases a with
      | some tr => intro _; exact ⟨tr, rfl⟩
      | none => intro _; exact ⟨"", rfl⟩
  refine ⟨?_, rfl, ?_⟩
  · simp only [translateEndpoint, if_neg h1, if_neg hlen]
    exact hcall _
  · simp only [translateEndpoint, if_neg h1, if_neg hlen]
    exact hbody _

/-- Witness for C10: text "hello", two requests differing only in the
supplied target language, service succeeding immediately. -/
theorem translate_target_language_fixed_witness :
    ("hello" : String) ≠ "" ∧ ("hello" : String).length ≤ 5000 ∧
    ((translateEndpoint "hello" (some "en")
        (fun _ _ => .ok "shalom")).callTarget = some "iw" ∧
      translateEndpoint "hello" (some "en") (fun _ _ => .ok "shalom") =
        translateEndpoint "hello" none (fun _ _ => .ok "shalom") ∧
      ((translateEndpoint "hello" (some "en")
          (fun _ _ => .ok "shalom")).status = 200 →
        ∃ tr, (translateEndpoint "hello" (some "en")
            (fun _ _ => .ok "shalom")).body = .success "hello" tr "iw")) :=
  ⟨by decide, by decide,
    translate_target_language_fixed "hello" (some "en") none
      (fun _ _ => .ok "shalom") (by decide) (by decide)⟩

/-! ## Filing content section extraction (server.js lines 325-385)

The extraction operates on the cleaned filing text (the HTML-stripping
pipeline of lines 306-323 ends in `.trim()`); characters are modelled as
`List Char`.
-/

/-- JavaScript `trim()` on a character list. -/
def trimChars (l : List Char) : List Char :=
  ((l.dropWhile Char.isWhitespace).reverse.dropWhile Char.isWhitespace).reverse

/-- JavaScript `text.split(newline)`. -/
def splitLines : List Char → List (List Char)
  | [] => [[]]
  | c :: rest =>
    if c = '\n' then [] :: splitLines rest
    else
      match splitLines rest with
      | [] => [[c]]
      | s :: ss => (c :: s) :: ss

/-- The apostrophe character (code 39). -/
def apos : Char := Char.ofNat 39

/-- `sectionMarkers` (server.js lines 327-334); the fifth marker contains
an apostrophe. -/
def sectionMarkers : List (List Char) :=
  ["ITEM 1. BUSINESS".toList,
   "ITEM 1A. RISK FACTORS".toList,
   "ITEM 2. MANAGEMENT".toList,
   "ITEM 3. FINANCIAL".toList,
   "ITEM 7. MANAGEMENT".toList ++ [apos] ++ "S DISCUSSION".toList,
   "ITEM 7A. QUANTITATIVE AND QUALITATIVE DISCLOSURES".toList]

/-- `sectionMarkers.find(marker => upperLine.includes(marker))` with
`upperLine = line.toUpperCase().trim()` (server.js lines 340-341). -/
def findMarker (line : List Char) : Option (List Char) :=
  sectionMarkers.find? fun m => containsSub (trimChars (line.map Char.toUpper)) m

/-- An extracted section. -/
structure Section where
  title : List Char
  content : List Char
deriving DecidableEq, Repr

/-- Fold state of the marker scan (server.js lines 336-337):
`currentSection`, `currentContent`, and the sections pushed so far. -/
structure MarkerState where
  currentSection : List Char
  currentContent : List Char
  sections : List Section
deriving DecidableEq, Repr

/-- One line of the marker scan (server.js lines 339-352): on a matched
marker, flush the previous section (when both its title and content are
non-empty, trimming the content) and start a new one; otherwise append the
line to the current section, or drop it when no section has started. -/
def markerStep (st : MarkerState) (line : List Char) : MarkerState :=
  match findMarker line with
  | some m =>
    let secs :=
      if st.currentSection ≠ [] ∧ st.currentContent ≠ [] then
        st.sections ++ [⟨st.currentSection, trimChars st.currentContent⟩]
      else st.sections
    ⟨m, line ++ ['\n'], secs⟩
  | none =>
    if st.currentSection ≠ [] then
      { st with currentContent := st.currentContent ++ line ++ ['\n'] }
    else st

/-- The complete marker scan with the trailing flush (server.js lines
339-356). -/
def markerPass (lines : List (List Char)) : List Section :=
  let fin := lines.foldl markerStep ⟨[], [], []⟩
  if fin.currentSection ≠ [] ∧ fin.currentContent ≠ [] then
    fin.sections ++ [⟨fin.currentSection, trimChars fin.currentContent⟩]
  else fin.sections

/-- One or more whitespace characters (the greedy whitespace-class plus of
the item pattern; whitespace and digits are disjoint so the greedy scan is
exact). -/
def matchWsPlus : List Char → Option (List Char)
  | c :: rest =>
    if c.isWhitespace then some (rest.dropWhile Char.isWhitespace) else none
  | [] => none

/-- One or more digits (the greedy digit-class plus of the item pattern;
digits, letters and the dot are disjoint so the greedy scan is exact). -/
def matchDigitsPlus : List Char → Option (List Char)
  | c :: rest => if c.isDigit then some (rest.dropWhile Char.isDigit) else none
  | [] => none

/-- An optional ASCII letter (the letter-class option of the item pattern
under the case-insensitive flag; a letter is never a dot, so consuming a
present letter is exact). -/
def matchOptLetter : List Char → List Char
  | c :: rest => if c.isAlpha then rest else c :: rest
  | [] => []

/-- Case-insensitive match, at the head of the list, of the generic item
pattern of server.js line 360: the word ITEM, whitespace, digits, an
optional letter, then a literal dot.  Returns the suffix after the match. -/
def matchItem : List Char → Option (List Char)
  | a :: b :: c :: d :: rest =>
    if a.toUpper = 'I' ∧ b.toUpper = 'T' ∧ c.toUpper = 'E' ∧ d.toUpper = 'M'
    then
      match matchWsPlus rest with
      | none => none
      | some r1 =>
        match matchDigitsPlus r1 with
        | none => none
        | some r2 =>
          match matchOptLetter r2 with
          | '.' :: r4 => some r4
          | _ => none
    else none
  | _ => none

theorem matchWsPlus_length {l r : List Char} (h : matchWsPlus l = some r) :
    r.length < l.length := by
  cases l with
  | nil => simp [matchWsPlus] at h
  | cons c rest =>
    simp only [matchWsPlus] at h
    split at h
    · have hr : rest.dropWhile Char.isWhitespace = r := by injection h
      have h3 : (rest.dropWhile Char.isWhitespace).length ≤ rest.length :=
        (List.dropWhile_sublist Char.isWhitespace).length_le
      rw [hr] at h3
      simp only [List.length_cons]
      omega
    · simp at h

theorem matchDigitsPlus_length {l r : List Char}
    (h : matchDigitsPlus l = some r) : r.length < l.length := by
  cases l with
  | nil => simp [matchDigitsPlus] at h
  | cons c rest =>
    simp only [matchDigitsPlus] at h
    split at h
    · have hr : rest.dropWhile Char.isDigit = r := by injection h
      have h3 : (rest.dropWhile Char.isDigit).length ≤ rest.length :=
        (List.dropWhile_sublist Char.isDigit).length_le
      rw [hr] at h3
      simp only [List.length_cons]
      omega
    · simp at h

theorem matchOptLetter_length (l : List Char) :
    (matchOptLetter l).length ≤ l.length := by
  cases l with
  | nil => simp [matchOptLetter]
  | cons c rest =>
    simp only [matchOptLetter]
    split <;> simp

theorem matchItem_length {l r : List Char} (h : matchItem l = some r) :
    r.length < l.length := by
  match l with
  | [] => simp [matchItem] at h
  | [a] => simp [matchItem] at h
  | [a, b] => simp [matchItem] at h
  | [a, b, c] => simp [matchItem] at h
  | a :: b :: c :: d :: rest =>
    simp only [matchItem] at h
    split at h
    · split at h
      · simp at h
      · rename_i r1 hw
        split at h
        · simp at h
        · rename_i r2 hd
          split at h
          · rename_i r4 ho
            have hw2 := matchWsPlus_length hw
            have hd2 := matchDigitsPlus_length hd
            have hl2 := matchOptLetter_length r2
            rw [ho] at hl2
            have hr : r4 = r := by injection h
            subst hr
            simp only [List.length_cons] at hl2 hw2 hd2 ⊢
            omega
          · simp at h
    · simp at h

/-- The item-pattern split of server.js line 360 (`text.split(pattern)`):
scan left to right, cutting the text at every match and dropping the
matched characters.  `acc` holds the current segment reversed; the fuel is
bounded below by the remaining length (each step consumes at least one
character), keeping the definition structurally recursive. -/
def splitByItemFuel : Nat → List Char → List Char → List (List Char)
  | _, acc, [] => [acc.reverse]
  | 0, acc, l => [acc.reverse ++ l]
  | fuel + 1, acc, c :: rest =>
    match matchItem (c :: rest) with
    | some r => acc.reverse :: splitByItemFuel fuel [] r
    | none => splitByItemFuel fuel (c :: acc) rest

/-- `text.split(itemPattern)` over the whole text. -/
def itemSplit (text : List Char) : List (List Char) :=
  splitByItemFuel text.length [] text

/-- Whether the generic item pattern matches anywhere in the text. -/
def hasItemMatch : List Char → Bool
  | [] => false
  | c :: rest => (matchItem (c :: rest)).isSome || hasItemMatch rest

/-- `ITEM ` followed by a one-based index (server.js line 364). -/
def itemTitle (n : Nat) : List Char := ("ITEM " ++ toString n).toList

/-- Every line of the text leaves the marker scan without a match. -/
def noMarkerMatches (text : List Char) : Bool :=
  (splitLines text).all fun l => (findMarker l).isNone

/-- The section extraction of `fetchFilingContent` on the cleaned text
(server.js lines 325-377): the marker scan; if it produced no section,
split on the generic item pattern keeping the non-empty pieces
(`filter(Boolean)`) as one section each; if still nothing, a single
whole-document section holding the first 15000 characters. -/
def extractSections (text : List Char) : List Section :=
  if (markerPass (splitLines text)).isEmpty then
    if ((itemSplit text).filter fun s => !s.isEmpty).isEmpty then
      [⟨"FILING CONTENT".toList, text.take 15000⟩]
    else
      ((itemSplit text).filter fun s => !s.isEmpty).enum.map
        fun p => ⟨itemTitle (p.1 + 1), trimChars p.2⟩
  else markerPass (splitLines text)

/-- The formatting step (server.js lines 380-382): each section rendered
with a hash-fenced title line and its content truncated to 5000
characters, sections joined by a blank line. -/
def formatContent (sections : List Section) : List Char :=
  List.intercalate "\n\n".toList
    (sections.map fun s =>
      "### ".toList ++ s.title ++ " ###".toList ++ ['\n'] ++ s.content.take 5000)

theorem markerStep_initial (line : List Char) (h : findMarker line = none) :
    markerStep ⟨[], [], []⟩ line = ⟨[], [], []⟩ := by
  simp [markerStep, h]

theorem markerPass_nil_of_noMarker (lines : List (List Char))
    (h : ∀ l ∈ lines, findMarker l = none) : markerPass lines = [] := by
  have hfold : lines.foldl markerStep ⟨[], [], []⟩ = ⟨[], [], []⟩ := by
    induction lines with
    | nil => rfl
    | cons a t ih =>
      rw [List.foldl_cons, markerStep_initial a (h a (by simp))]
      exact ih fun l hl => h l (by simp [hl])
  simp [markerPass, hfold]

theorem splitByItemFuel_no_match (l : List Char) (h : hasItemMatch l = false) :
    ∀ fuel acc, l.length ≤ fuel →
      splitByItemFuel fuel acc l = [acc.reverse ++ l] := by
  induction l with
  | nil => intro fuel acc hf; cases fuel <;> simp [splitByItemFuel]
  | cons c rest ih =>
    intro fuel acc hf
    simp only [hasItemMatch, Bool.or_eq_false_iff] at h
    obtain ⟨h1, h2⟩ := h
    have hm : matchItem (c :: rest) = none := by
      cases hmm : matchItem (c :: rest) with
      | none => rfl
      | some r => rw [hmm] at h1; simp at h1
    cases fuel with
    | zero => simp at hf
    | succ fuel =>
      simp only [splitByItemFuel, hm]
      rw [ih h2 fuel (c :: acc) (by simp only [List.length_cons] at hf; omega)]
      simp

theorem formatContent_singleton (s : Section) : formatContent [s] =
    "### ".toList ++ s.title ++ " ###".toList ++ ['\n'] ++ s.content.take 5000 := by
  simp [formatContent, List.intercalate, List.intersperse]

/-- Counterexample to claim C8: in the text `AB ITEM 2. CD` no heading
marker from `sectionMarkers` matches any line, yet the extractor yields two
sections, not one: the generic item-number fallback of server.js line 360
splits the text at `ITEM 2.`. -/
theorem section_extractor_counterexample :
    noMarkerMatches "AB ITEM 2. CD".toList = true ∧
    (extractSections "AB ITEM 2. CD".toList).length = 2 ∧
    (extractSections "AB ITEM 2. CD".toList).length ≠ 1 := by
  decide

/-- Claim C8 as amended: for a non-empty cleaned text in which no heading
marker matches any line and the generic item-number pattern does not match
anywhere, the extractor yields exactly one section whose content is the
whole (trimmed) text - unbounded at this stage; the per-section truncation
to the 5000-character maximum happens in the formatting step, whose output
for this section is the fenced title followed by an initial segment of the
text bounded by 5000 characters. -/
theorem section_extractor_no_marker_no_item (text : List Char)
    (h1 : noMarkerMatches text = true) (h2 : hasItemMatch text = false)
    (h3 : text ≠ []) :
    extractSections text = [⟨itemTitle 1, trimChars text⟩] ∧
    formatContent (extractSections text) =
      "### ITEM 1 ###\n".toList ++ (trimChars text).take 5000 := by
  have hmp : markerPass (splitLines text) = [] := by
    apply markerPass_nil_of_noMarker
    intro l hl
    exact Option.isNone_iff_eq_none.mp (List.all_eq_true.mp h1 l hl)
  have hsplit : itemSplit text = [text] := by
    simpa [itemSplit] using
      splitByItemFuel_no_match text h2 text.length [] (Nat.le_refl _)
  have hfilter : ((itemSplit text).filter fun s => !s.isEmpty) = [text] := by
    rw [hsplit]
    cases text with
    | nil => exact absurd rfl h3
    | cons a r => simp [List.filter]
  have hsec : extractSections text = [⟨itemTitle 1, trimChars text⟩] := by
    simp only [extractSections, hmp, hfilter, List.isEmpty_nil, if_true]
    simp [List.enum, List.enumFrom]
  refine ⟨hsec, ?_⟩
  rw [hsec, formatContent_singleton]
  have ht : itemTitle 1 = "ITEM 1".toList := by decide
  simp only
  rw [ht]
  exact congrArg (fun z => z ++ (trimChars text).take 5000) (by decide)

/-- Witness for amended C8: the text `HELLO WORLD`. -/
theorem section_extractor_no_marker_no_item_witness :
    noMarkerMatches "HELLO WORLD".toList = true ∧
    hasItemMatch "HELLO WORLD".toList = false ∧
    "HELLO WORLD".toList ≠ [] ∧
    (extractSections "HELLO WORLD".toList =
        [⟨itemTitle 1, trimChars "HELLO WORLD".toList⟩] ∧
      formatContent (extractSections "HELLO WORLD".toList) =
        "### ITEM 1 ###\n".toList ++ (trimChars "HELLO WORLD".toList).take 5000) :=
  ⟨by decide, by decide, by decide,
    section_extractor_no_marker_no_item "HELLO WORLD".toList (by decide)
      (by decide) (by decide)⟩

end LevyAnalyzer
